import Mathlib

/-!
# Maintenance calendar: the maintenance-window resolver and the calendar builder

A shallow embedding of `main.go`.

Modelling conventions.

* A run of the program either produces a value or stops: a Go runtime panic
  (index out of range, nil dereference, `errorCheck`) or `log.Fatal`.  Code that
  can stop returns `Except Abort _`.
* Go strings are Lean `String`s; the parsing helpers work on the character list.
  Every separator passed to `strings.Split`, `strings.Join` and `strings.Replace`
  in `main.go` is a single byte, so the helpers take a `Char`.
* `time.Time` is a wall-clock reading in a fixed-offset location: the number of
  nanoseconds since 1970-01-01 00:00:00 on that location's clock, together with the
  location.  A calendar date (the triple `Year(), Month(), Day()`) is represented by
  its day number, the number of days since 1970-01-01; `time.Date` and `AddDate`
  normalise out-of-range fields by carrying, which on this representation is plain
  integer arithmetic.
* The remote services are an `Env` of functions that return an error or a
  response.  The per-region connection caches only memoise client construction and
  are left out.
-/

namespace MaintenanceCalendar

/-! ## Aborted runs -/

/-- Ways a run stops without a result: a runtime panic or `log.Fatal`. -/
inductive Abort where
  | panic
  | fatal
deriving DecidableEq, Repr

instance {ε α : Type} [DecidableEq ε] [DecidableEq α] : DecidableEq (Except ε α)
  | .ok a, .ok b => if h : a = b then isTrue (by rw [h]) else isFalse (by simp [h])
  | .error a, .error b => if h : a = b then isTrue (by rw [h]) else isFalse (by simp [h])
  | .ok _, .error _ => isFalse (by simp)
  | .error _, .ok _ => isFalse (by simp)

/-- Slice indexing `xs[i]`: out of range is a runtime panic. -/
def index {α : Type} (xs : List α) (i : Nat) : Except Abort α :=
  match xs.get? i with
  | some x => .ok x
  | none => .error .panic

/-- Pointer dereference `*p`: nil is a runtime panic. -/
def deref {α : Type} (p : Option α) : Except Abort α :=
  match p with
  | some x => .ok x
  | none => .error .panic

/-! ## `strings` and `strconv` -/

/-- Worker of `strings.Split(s, sep)` for a one-byte `sep`: `cur` is the piece
being read, kept reversed. -/
def splitAux (sep : Char) : List Char → List Char → List (List Char)
  | [], cur => [cur.reverse]
  | c :: cs, cur =>
    if c = sep then cur.reverse :: splitAux sep cs [] else splitAux sep cs (c :: cur)

/-- Go `strings.Split(s, sep)` for a one-byte `sep`; `Split("", sep)` is `[""]`. -/
def Split (s : String) (sep : Char) : List String :=
  (splitAux sep s.data []).map String.mk

/-- Go `strings.Join(elems, sep)` for a one-byte `sep`. -/
def Join (elems : List String) (sep : Char) : String :=
  String.mk ((elems.map String.data).intersperse [sep]).flatten

/-- Go `strings.Replace(s, old, new, -1)` for one-byte `old` and `new`. -/
def Replace (s : String) (old new : Char) : String :=
  String.mk (s.data.map fun c => if c = old then new else c)

/-- Outcome of `strconv.ParseUint`: a value, a syntax error, or a range error
carrying the largest value of the bit size. -/
inductive UintResult where
  | value (n : Nat)
  | syntaxError
  | rangeError (maxVal : Nat)
deriving DecidableEq, Repr

/-- The digit loop of `strconv.ParseUint(s, 10, bitSize)`.  It returns at the first
offending character: a non-digit is a syntax error, a value above `maxVal` a range
error, whichever comes first. -/
def parseUintLoop (maxVal : Nat) : List Char → Nat → UintResult
  | [], n => .value n
  | c :: cs, n =>
    if 48 ≤ c.toNat ∧ c.toNat ≤ 57 then
      let d := c.toNat - 48
      if n ≥ 2 ^ 64 / 10 + 1 then .rangeError maxVal
      else
        let n1 := n * 10 + d
        if n1 ≥ 2 ^ 64 ∨ n1 > maxVal then .rangeError maxVal
        else parseUintLoop maxVal cs n1
    else .syntaxError

/-- Go `strconv.ParseUint(s, 10, bitSize)`. -/
def ParseUint (s : List Char) (bitSize : Nat) : UintResult :=
  match s with
  | [] => .syntaxError
  | _ => parseUintLoop (2 ^ bitSize - 1) s 0

/-- Go `strconv.ParseInt(s, 10, bitSize)` with the error discarded, as every
caller in `main.go` does: the value is 0 on a syntax error and the nearest bound
of the bit size on a range error. -/
def ParseInt (s : String) (bitSize : Nat) : Int :=
  match s.data with
  | [] => 0
  | c :: cs =>
    let neg := decide (c = '-')
    let body := if c = '+' ∨ c = '-' then cs else c :: cs
    let cutoff : Nat := 2 ^ (bitSize - 1)
    match ParseUint body bitSize with
    | .syntaxError => 0
    | .rangeError un =>
      if !neg ∧ un ≥ cutoff then (cutoff : Int) - 1
      else if neg ∧ un > cutoff then -(cutoff : Int)
      else if neg then -(un : Int) else (un : Int)
    | .value un =>
      if !neg ∧ un ≥ cutoff then (cutoff : Int) - 1
      else if neg ∧ un > cutoff then -(cutoff : Int)
      else if neg then -(un : Int) else (un : Int)

/-- Go `strconv.Atoi(s)` with the error discarded (64-bit `int`). -/
def Atoi (s : String) : Int := ParseInt s 64

/-! ## `time` -/

/-- A fixed-offset `time.Location`: its name and its offset east of UTC in
seconds. -/
structure Zone where
  name : String
  offset : Int
deriving DecidableEq, Repr

/-- A `time.Time`: the reading `wall` of the clock of `loc`, in nanoseconds since
1970-01-01 00:00:00 on that clock. -/
structure Time where
  wall : Int
  loc : Zone
deriving DecidableEq, Repr

namespace Time

/-- The calendar date `(Year(), Month(), Day())`, as days since 1970-01-01. -/
def civil (t : Time) : Int := t.wall / 86400000000000

/-- Go `t.Hour()`. -/
def Hour (t : Time) : Int := t.wall % 86400000000000 / 3600000000000

/-- Go `t.Minute()`. -/
def Minute (t : Time) : Int := t.wall % 3600000000000 / 60000000000

/-- Go `t.Second()`. -/
def Second (t : Time) : Int := t.wall % 60000000000 / 1000000000

/-- Go `t.Nanosecond()`. -/
def Nanosecond (t : Time) : Int := t.wall % 1000000000

/-- Go `t.Weekday()`, Sunday = 0; 1970-01-01 was a Thursday. -/
def Weekday (t : Time) : Int := (t.civil + 4) % 7

/-- Go `t.Location()`. -/
def Location (t : Time) : Zone := t.loc

/-- Go `time.Date(y, m, d, hour, min, sec, nsec, loc)` for the date with day number
`date`; out-of-range `hour`, `min`, `sec`, `nsec` carry into the next field. -/
def Date (date hour min sec nsec : Int) (loc : Zone) : Time :=
  ⟨(((date * 24 + hour) * 60 + min) * 60 + sec) * 1000000000 + nsec, loc⟩

/-- Go `t.AddDate(0, 0, days)`. -/
def AddDate (t : Time) (days : Int) : Time :=
  Date (t.civil + days) t.Hour t.Minute t.Second t.Nanosecond t.loc

/-- The instant of `t` in nanoseconds since the Unix epoch (UTC). -/
def unixNano (t : Time) : Int := t.wall - t.loc.offset * 1000000000

end Time

/-! ## The maintenance-window resolver -/

/-- Go `weekday_from_shortname`: an unknown name leaves the zero value, Sunday. -/
def weekday_from_shortname (shortname : String) : Int :=
  if shortname = "sun" then 0
  else if shortname = "mon" then 1
  else if shortname = "tue" then 2
  else if shortname = "wed" then 3
  else if shortname = "thu" then 4
  else if shortname = "fri" then 5
  else if shortname = "sat" then 6
  else 0

/-- The variable `days_ahead` of `next_maintenance_window` after its `if`/`else if`:
the weekday difference, plus 7 when it is negative, or when it is 0 and both the
window's hour is below the reference hour and its minute below the reference
minute. -/
def days_ahead (sw sh sm : Int) (base_time : Time) : Int :=
  let d0 := sw - base_time.Weekday
  if d0 < 0 then d0 + 7
  else if d0 = 0 ∧ sh < base_time.Hour ∧ sm < base_time.Minute then d0 + 7
  else d0

/-- Go `next_maintenance_window`. -/
def next_maintenance_window (base_time : Option Time)
    (maintenance_window_start maintenance_window_end : List String) :
    Except Abort (Time × Time) := do
  let sw := weekday_from_shortname (← index maintenance_window_start 0)
  let sh := ParseInt (← index maintenance_window_start 1) 8
  let sm := ParseInt (← index maintenance_window_start 2) 8
  let ew := weekday_from_shortname (← index maintenance_window_end 0)
  let eh := ParseInt (← index maintenance_window_end 1) 8
  let em := ParseInt (← index maintenance_window_end 2) 8
  let base ← deref base_time
  let next_date := base.AddDate (days_ahead sw sh sm base)
  let next_start := Time.Date next_date.civil sh sm 0 0 next_date.Location
  let end0 := if ew ≠ sw then next_start.AddDate 1 else next_start
  let next_end := Time.Date end0.civil eh em 0 0 next_date.Location
  pure (next_start, next_end)

/-- Go `maintenance_time`. -/
def maintenance_time (event_start : Option Time) (maintenance_window : String) :
    Except Abort (Time × Time) := do
  let maintenance_window_start_end := Split maintenance_window '-'
  let maintenance_window_start := Split (← index maintenance_window_start_end 0) ':'
  let maintenance_window_end := Split (← index maintenance_window_start_end 1) ':'
  next_maintenance_window event_start maintenance_window_start maintenance_window_end

/-! ## Remote services -/

/-- An EC2 tag; both fields are pointers in the SDK. -/
structure Tag where
  Key : Option String
  Value : Option String
deriving DecidableEq, Repr

/-- One element of `DescribeEventDetailsOutput.SuccessfulSet`, flattened: a field
is `none` when the pointer the code dereferences to reach it is nil. -/
structure EventDetails where
  LatestDescription : Option String
  EventTypeCode : Option String
  Service : Option String
  StartTime : Option Time
  EndTime : Option Time
deriving DecidableEq, Repr

/-- A `health.Event` as far as `calendar_events` reads it. -/
structure HealthEvent where
  Arn : Option String
  Region : Option String
deriving DecidableEq, Repr

/-- The remote calls, each returning an error or the list the code ranges over.
The region is the first argument of the regional services.
`DescribeInstances` yields, per reservation and per instance, the tags;
`DescribeDBClusters`, `DescribeDBInstances` and `DescribeCacheClusters` yield the
`PreferredMaintenanceWindow` pointers; `DescribeReplicationGroups` yields the
`MemberClusters` of each group. -/
structure Env where
  DescribeAffectedEntities : Option String → Except String (List (Option String))
  DescribeEventDetails : Option String → Except String (List EventDetails)
  DescribeInstances : String → String → Except String (List (List (List Tag)))
  DescribeDBClusters : String → String → Except String (List (Option String))
  DescribeDBInstances : String → String → Except String (List (Option String))
  DescribeReplicationGroups : String → String → Except String (List (List (Option String)))
  DescribeCacheClusters : String → String → Except String (List (Option String))
  QueryEscape : String → String

/-- A call whose error is discarded (`out, _ := ...`): the SDK hands back an
unfilled output next to the error, so the code ranges over an empty list. -/
def ignoreErr {α : Type} (r : Except String (List α)) : List α :=
  match r with
  | .ok xs => xs
  | .error _ => []

/-- A call followed by `log.Fatal` on error. -/
def orFatal {α : Type} (r : Except String α) : Except Abort α :=
  match r with
  | .ok x => .ok x
  | .error _ => .error .fatal

/-- A call followed by `errorCheck`, which panics on error. -/
def errorCheck {α : Type} (r : Except String α) : Except Abort α :=
  match r with
  | .ok x => .ok x
  | .error _ => .error .panic

/-- A loop `for _, x := range xs { v = *x }`: the last element wins, a nil pointer
panics. -/
def lastDeref {α : Type} : List (Option α) → α → Except Abort α
  | [], v => .ok v
  | x :: xs, _ => do
    let v ← deref x
    lastDeref xs v

/-- The loop over the entities in `resource_ids`: `*entity.EntityValue` is appended
for each entity in turn. -/
def entityLoop : List (Option String) → Except Abort (List String)
  | [] => .ok []
  | entity :: rest => do
    let v ← deref entity
    let vs ← entityLoop rest
    pure (v :: vs)

/-- Go `resource_ids`. -/
def resource_ids (env : Env) (health_arn : Option String) : Except Abort (List String) :=
  entityLoop (ignoreErr (env.DescribeAffectedEntities health_arn))

/-- The loop over `SuccessfulSet` in `process_event`: the last record wins. -/
def detailLoop : List EventDetails →
    String × String × String × Option Time × Option Time →
    Except Abort (String × String × String × Option Time × Option Time)
  | [], acc => .ok acc
  | set :: sets, _ => do
    let description ← deref set.LatestDescription
    let et ← deref set.EventTypeCode
    let es ← deref set.Service
    detailLoop sets (description, et, es, set.StartTime, set.EndTime)

/-- Go `process_event`. -/
def process_event (env : Env) (health_arn : Option String) :
    Except Abort (List String × String × String × String × Option Time × Option Time) := do
  let resourceIds ← resource_ids env health_arn
  let detailedEvents ← orFatal (env.DescribeEventDetails health_arn)
  let (description, et, es, est, eet) ← detailLoop detailedEvents ("", "", "", none, none)
  pure (resourceIds, description, et, es, est, eet)

/-- The loop over one instance's tags in `ec2InstanceName`. -/
def tagLoop (env : Env) : List Tag → String → Except Abort String
  | [], name => .ok name
  | tag :: tags, name => do
    let key ← deref tag.Key
    if key = "Name" then
      let value ← deref tag.Value
      tagLoop env tags (env.QueryEscape value)
    else tagLoop env tags name

/-- The loop over the instances of one reservation in `ec2InstanceName`. -/
def instanceLoop (env : Env) : List (List Tag) → String → Except Abort String
  | [], name => .ok name
  | tags :: rest, name => do
    let name1 ← tagLoop env tags name
    instanceLoop env rest name1

/-- The loop over the reservations in `ec2InstanceName`. -/
def reservationLoop (env : Env) : List (List (List Tag)) → String → Except Abort String
  | [], name => .ok name
  | instances :: rest, name => do
    let name1 ← instanceLoop env instances name
    reservationLoop env rest name1

/-- Go `ec2InstanceName`. -/
def ec2InstanceName (env : Env) (id region : String) : Except Abort String := do
  let reservations ← errorCheck (env.DescribeInstances region id)
  reservationLoop env reservations ""

/-- Go `rds_maintenance_window`. -/
def rds_maintenance_window (env : Env) (name region : String) : Except Abort String := do
  let db_clusters ← orFatal (env.DescribeDBClusters region name)
  let w ← lastDeref db_clusters ""
  if w ≠ "" then pure w
  else
    let db_instances ← orFatal (env.DescribeDBInstances region name)
    lastDeref db_instances w

/-- The loop over the replication groups in `elasticache_maintenance_window`:
`*replica_set.MemberClusters[elasticache_number - 1]`. -/
def memberLoop (elasticache_number : Int) : List (List (Option String)) → String →
    Except Abort String
  | [], v => .ok v
  | members :: rest, _ => do
    let p ← if elasticache_number - 1 < 0 then .error .panic
      else index members (elasticache_number - 1).toNat
    let v ← deref p
    memberLoop elasticache_number rest v

/-- Go `elasticache_maintenance_window`. -/
def elasticache_maintenance_window (env : Env) (name region : String) :
    Except Abort String := do
  let elasticache_name_normalized := Replace name '/' '_'
  let elasticache_name_split_underscore := Split elasticache_name_normalized '_'
  let elasticache_name_underscore_trimmed ←
    if elasticache_name_split_underscore.length < 2 then .error .panic
    else pure (elasticache_name_split_underscore.take
      (elasticache_name_split_underscore.length - 2))
  let elasticache_name := Join elasticache_name_underscore_trimmed '_'
  let elasticache_number_split_dash := Split name '-'
  let elasticache_number_dash_trimmed ←
    index elasticache_number_split_dash (elasticache_number_split_dash.length - 1)
  let elasticache_number := Atoi elasticache_number_dash_trimmed
  let replica_sets := ignoreErr (env.DescribeReplicationGroups region elasticache_name)
  let elasticache_cluster_name ← memberLoop elasticache_number replica_sets ""
  let clusters := ignoreErr (env.DescribeCacheClusters region elasticache_cluster_name)
  lastDeref clusters ""

/-! ## The calendar builder -/

/-- An `ical.CalendarEvent`. -/
structure CalendarEvent where
  Id : String
  Summary : String
  Description : String
  Location : String
  URL : String
  StartAt : Option Time
  EndAt : Option Time
deriving DecidableEq, Repr

/-- Go `calendar_event`. -/
def calendar_event (id summary description location : String)
    (start_time end_time : Option Time) : CalendarEvent :=
  { Id := id
    Summary := summary
    Description := description
    Location := location
    URL := "https://phd.aws.amazon.com/phd/home?region=us-east-1#/dashboard/scheduled-changes"
    StartAt := start_time
    EndAt := end_time }

/-- The `switch full_event_type` of `calendar_events`: the display label of an
event-type code. -/
def event_type_label (full_event_type : String) : String :=
  if full_event_type = "AWS_EC2_INSTANCE_REBOOT_MAINTENANCE_SCHEDULED" then "REBOOT"
  else if full_event_type = "AWS_EC2_INSTANCE_POWER_MAINTENANCE_SCHEDULED" then "REBOOT"
  else if full_event_type = "AWS_EC2_SYSTEM_REBOOT_MAINTENANCE_SCHEDULED" then "REBOOT"
  else if full_event_type = "AWS_EC2_INSTANCE_RETIREMENT_SCHEDULED" then "RETIREMENT"
  else if full_event_type = "AWS_EC2_INSTANCE_NETWORK_MAINTENANCE_SCHEDULED" then "NET MAINT"
  else if full_event_type = "AWS_RDS_MAINTENANCE_SCHEDULED" then "MAINT SCHEDULED"
  else full_event_type

/-- One pass of the body of the loop over an event's affected resources in
`calendar_events`, up to the call of `calendar_event`: the summary and the values
of `calendar_event_start_time` and `calendar_event_end_time` after the `switch`. -/
def resource_step (env : Env) (region event_type event_service : String)
    (event_affected_resource : String)
    (calendar_event_start_time calendar_event_end_time : Option Time) :
    Except Abort (String × Option Time × Option Time) :=
  if event_service = "EC2" then do
    let name ← ec2InstanceName env event_affected_resource region
    pure (event_type ++ " " ++ name ++ " " ++ event_affected_resource,
      calendar_event_start_time, calendar_event_end_time)
  else if event_service = "RDS" then do
    let w ← rds_maintenance_window env event_affected_resource region
    let (s, e) ← maintenance_time calendar_event_start_time w
    pure (event_service ++ " " ++ event_affected_resource ++ " " ++ event_type, some s, some e)
  else if event_service = "ELASTICACHE" then do
    let w ← elasticache_maintenance_window env event_affected_resource region
    let (s, e) ← maintenance_time calendar_event_start_time w
    pure (event_service ++ " " ++ event_affected_resource ++ " " ++ event_type, some s, some e)
  else
    pure (event_service ++ " " ++ event_affected_resource ++ " " ++ event_type,
      calendar_event_start_time, calendar_event_end_time)

/-- The loop over an event's affected resources in `calendar_events`: the entries
it appends, given the values the two time variables have on entry.  The variables
are assigned inside the loop, so each pass starts from what the previous one left. -/
def resource_loop (env : Env) (calendar_event_id calendar_event_description
    calendar_event_location event_type event_service : String) :
    List String → Option Time → Option Time → Except Abort (List CalendarEvent)
  | [], _, _ => .ok []
  | event_affected_resource :: rest, calendar_event_start_time, calendar_event_end_time => do
    let (calendar_event_summary, start1, end1) ←
      resource_step env calendar_event_location event_type event_service
        event_affected_resource calendar_event_start_time calendar_event_end_time
    let entry := calendar_event (calendar_event_id ++ "_" ++ event_affected_resource)
      calendar_event_summary calendar_event_description calendar_event_location start1 end1
    let entries ← resource_loop env calendar_event_id calendar_event_description
      calendar_event_location event_type event_service rest start1 end1
    pure (entry :: entries)

/-- The body of the loop over the health events in `calendar_events`: the entries
of one event. -/
def event_entries (env : Env) (health_event : HealthEvent) :
    Except Abort (List CalendarEvent) := do
  let health_arn := health_event.Arn
  let (event_affected_resources, event_description, full_event_type, event_service,
    event_start_time, event_end_time) ← process_event env health_arn
  let event_type := event_type_label full_event_type
  let calendar_event_id ← deref health_arn
  let calendar_event_location ← deref health_event.Region
  resource_loop env calendar_event_id event_description calendar_event_location
    event_type event_service event_affected_resources event_start_time event_end_time

/-- Go `calendar_events`. -/
def calendar_events (env : Env) : List HealthEvent → Except Abort (List CalendarEvent)
  | [] => .ok []
  | health_event :: rest => do
    let entries ← event_entries env health_event
    let more ← calendar_events env rest
    pure (entries ++ more)

/-! ## Window format and well-formedness -/

/-- The seven weekday abbreviations of a maintenance window. -/
def shortnames : List String := ["sun", "mon", "tue", "wed", "thu", "fri", "sat"]

/-- One half of a well-formed window, as the three strings the resolver receives: a
weekday abbreviation, and an hour and a minute that `ParseInt` reads as a number in
0-23 and in 0-59. -/
def wellFormed (name hour minute : String) : Prop :=
  name ∈ shortnames ∧ 0 ≤ ParseInt hour 8 ∧ ParseInt hour 8 ≤ 23 ∧
    0 ≤ ParseInt minute 8 ∧ ParseInt minute 8 ≤ 59

instance (name hour minute : String) : Decidable (wellFormed name hour minute) := by
  unfold wellFormed; infer_instance

/-- The abbreviation of weekday number `w`, Sunday = 0. -/
def shortname (w : Nat) : String := shortnames.getD w "sun"

/-- A number below 100 written with two decimal digits. -/
def twoDigits (n : Nat) : String := String.mk [Char.ofNat (48 + n / 10), Char.ofNat (48 + n % 10)]

/-- One half `wkd:HH:MM` of a window string. -/
def halfString (w h m : Nat) : String := shortname w ++ ":" ++ twoDigits h ++ ":" ++ twoDigits m

/-- The window string `wkd:HH:MM-wkd:HH:MM`. -/
def windowString (sw sh sm ew eh em : Nat) : String :=
  halfString sw sh sm ++ "-" ++ halfString ew eh em

/-- A maintenance-window string of the form `wkd:HH:MM-wkd:HH:MM`: weekday numbers
below 7, hours below 24, minutes below 60. -/
def isWindow (w : String) : Prop :=
  ∃ sw sh sm ew eh em : Nat, sw < 7 ∧ sh < 24 ∧ sm < 60 ∧ ew < 7 ∧ eh < 24 ∧ em < 60 ∧
    w = windowString sw sh sm ew eh em

/-- The enrichment lookup that `calendar_events` makes for resource `r` of an event of
service `event_service` succeeds: for a compute event `ec2InstanceName` returns; for a
database or cache event the window lookup returns a window string of the form
`wkd:HH:MM-wkd:HH:MM`.  Events of other services make no lookup. -/
def enriched (env : Env) (region event_service r : String) : Prop :=
  (event_service = "EC2" → ∃ name, ec2InstanceName env r region = .ok name) ∧
  (event_service = "RDS" →
    ∃ w, rds_maintenance_window env r region = .ok w ∧ isWindow w) ∧
  (event_service = "ELASTICACHE" →
    ∃ w, elasticache_maintenance_window env r region = .ok w ∧ isWindow w)

/-! ## Example inputs -/

/-- The UTC location. -/
def utc : Zone := ⟨"UTC", 0⟩

/-- Wednesday 2024-01-03 (day 19725) at 10:00 UTC. -/
def wednesday1000 : Time := Time.Date 19725 10 0 0 0 utc

/-- Monday 2024-01-08 (day 19730) at 01:00 UTC. -/
def monday0100 : Time := Time.Date 19730 1 0 0 0 utc

/-- Monday 2024-01-08 (day 19730) at 10:30 UTC. -/
def monday1030 : Time := Time.Date 19730 10 30 0 0 utc

/-- An environment in which every lookup succeeds with an empty response. -/
def quiet : Env where
  DescribeAffectedEntities := fun _ => .ok []
  DescribeEventDetails := fun _ => .ok []
  DescribeInstances := fun _ _ => .ok []
  DescribeDBClusters := fun _ _ => .ok []
  DescribeDBInstances := fun _ _ => .ok []
  DescribeReplicationGroups := fun _ _ => .ok []
  DescribeCacheClusters := fun _ _ => .ok []
  QueryEscape := fun s => s

/-- A compute event affecting three instances, each tagged with a name. -/
def computeEnv : Env :=
  { quiet with
    DescribeAffectedEntities := fun _ => .ok [some "i-a", some "i-b", some "i-c"]
    DescribeEventDetails := fun _ =>
      .ok [⟨some "retirement", some "AWS_EC2_INSTANCE_RETIREMENT_SCHEDULED", some "EC2",
        some wednesday1000, some monday0100⟩]
    DescribeInstances := fun _ id => .ok [[[⟨some "Name", some ("web-" ++ id)⟩]]] }

/-- The event of `computeEnv`. -/
def computeEvent : HealthEvent := ⟨some "e-1", some "us-east-1"⟩

/-- A database event affecting two instances with different maintenance windows. -/
def databaseEnv : Env :=
  { quiet with
    DescribeAffectedEntities := fun _ => .ok [some "db-a", some "db-b"]
    DescribeEventDetails := fun _ =>
      .ok [⟨some "patching", some "AWS_RDS_MAINTENANCE_SCHEDULED", some "RDS",
        some wednesday1000, some wednesday1000⟩]
    DescribeDBClusters := fun _ name =>
      if name = "db-a" then .ok [some "mon:02:00-mon:04:00"]
      else .ok [some "sun:02:00-sun:04:00"] }

/-- The event of `databaseEnv`. -/
def databaseEvent : HealthEvent := ⟨some "e-2", some "us-east-1"⟩

/-- A database event affecting one instance whose cluster lookup fails. -/
def failingDatabaseEnv : Env :=
  { databaseEnv with
    DescribeAffectedEntities := fun _ => .ok [some "db-a"]
    DescribeDBClusters := fun _ _ => .error "DBClusterNotFoundFault" }

/-- A compute event affecting one instance that the instance lookup does not find. -/
def unnamedComputeEnv : Env :=
  { quiet with
    DescribeAffectedEntities := fun _ => .ok [some "i-a"]
    DescribeEventDetails := fun _ =>
      .ok [⟨some "retirement", some "AWS_EC2_INSTANCE_RETIREMENT_SCHEDULED", some "EC2",
        some wednesday1000, some monday0100⟩] }

/-- A compute event affecting one instance whose instance lookup fails. -/
def failingComputeEnv : Env :=
  { unnamedComputeEnv with DescribeInstances := fun _ _ => .error "RequestLimitExceeded" }

/-- A database event affecting one instance for which both database lookups succeed
and find nothing, so that no maintenance window is known. -/
def windowlessDatabaseEnv : Env :=
  { quiet with
    DescribeAffectedEntities := fun _ => .ok [some "db-a"]
    DescribeEventDetails := fun _ =>
      .ok [⟨some "patching", some "AWS_RDS_MAINTENANCE_SCHEDULED", some "RDS",
        some wednesday1000, some wednesday1000⟩] }

/-- A cache event whose two cache lookups fail. -/
def failingCacheEnv : Env :=
  { quiet with
    DescribeAffectedEntities := fun _ => .ok [some "grp/node_a-001"]
    DescribeEventDetails := fun _ =>
      .ok [⟨some "patching", some "AWS_ELASTICACHE_UPDATE", some "ELASTICACHE",
        some wednesday1000, some wednesday1000⟩]
    DescribeReplicationGroups := fun _ _ => .error "ReplicationGroupNotFoundFault"
    DescribeCacheClusters := fun _ _ => .error "CacheClusterNotFound" }

/-! ## Arithmetic of `time` -/

/-- Adding days moves the clock reading by whole days. -/
theorem Time.AddDate_wall (t : Time) (k : Int) :
    (t.AddDate k).wall = t.wall + k * 86400000000000 := by
  simp only [Time.AddDate, Time.Date, Time.civil, Time.Hour, Time.Minute, Time.Second,
    Time.Nanosecond]
  omega

/-- Adding days moves the calendar date by that many days. -/
theorem Time.AddDate_civil (t : Time) (k : Int) : (t.AddDate k).civil = t.civil + k := by
  simp only [Time.civil, Time.AddDate_wall]
  omega

/-- The fields of `time.Date` at an in-range hour and minute, seconds and nanoseconds 0. -/
theorem Time.Date_fields (d h m : Int) (loc : Zone)
    (h0 : 0 ≤ h) (h1 : h ≤ 23) (m0 : 0 ≤ m) (m1 : m ≤ 59) :
    (Time.Date d h m 0 0 loc).civil = d ∧ (Time.Date d h m 0 0 loc).Hour = h ∧
    (Time.Date d h m 0 0 loc).Minute = m ∧ (Time.Date d h m 0 0 loc).Second = 0 ∧
    (Time.Date d h m 0 0 loc).Nanosecond = 0 := by
  simp only [Time.Date, Time.civil, Time.Hour, Time.Minute, Time.Second, Time.Nanosecond]
  omega

/-- The location of `time.Date` is the one passed in. -/
theorem Time.Date_loc (d h m s n : Int) (loc : Zone) : (Time.Date d h m s n loc).loc = loc :=
  rfl

/-! ## The resolver in closed form -/

/-- Every parsed weekday is in 0..6. -/
theorem weekday_from_shortname_range (name : String) :
    0 ≤ weekday_from_shortname name ∧ weekday_from_shortname name ≤ 6 := by
  unfold weekday_from_shortname
  split_ifs <;> omega

/-- The two outcomes of `days_ahead` for a weekday in 0..6: the weekday difference modulo 7, or a full week when the roll-forward test fires. -/
theorem days_ahead_cases (sw sh sm : Int) (T : Time) (h0 : 0 ≤ sw) (h6 : sw ≤ 6) :
    (days_ahead sw sh sm T = (sw - T.Weekday) % 7 ∧
      ¬ (sw = T.Weekday ∧ sh < T.Hour ∧ sm < T.Minute)) ∨
    (days_ahead sw sh sm T = 7 ∧ sw = T.Weekday ∧ sh < T.Hour ∧ sm < T.Minute) := by
  have hw : 0 ≤ T.Weekday ∧ T.Weekday < 7 := by
    unfold Time.Weekday; omega
  unfold days_ahead
  simp only
  split_ifs with h1 h2 <;> omega

/-- No days ahead for a reference time on the window's weekday at the window's hour. -/
theorem days_ahead_self (sw sh sm : Int) (t : Time) (hw : t.Weekday = sw) (hh : t.Hour = sh) :
    days_ahead sw sh sm t = 0 := by
  unfold days_ahead
  simp [hw, hh]

/-- The resolver on two three-element slices and a non-nil reference time, in closed form. -/
theorem next_maintenance_window_ok (T : Time) (a b c d e f : String) :
    next_maintenance_window (some T) [a, b, c] [d, e, f] =
      .ok (Time.Date (T.civil + days_ahead (weekday_from_shortname a) (ParseInt b 8)
              (ParseInt c 8) T) (ParseInt b 8) (ParseInt c 8) 0 0 T.loc,
           Time.Date ((Time.Date (T.civil + days_ahead (weekday_from_shortname a)
              (ParseInt b 8) (ParseInt c 8) T) (ParseInt b 8) (ParseInt c 8) 0 0 T.loc).civil
              + (if weekday_from_shortname d ≠ weekday_from_shortname a then 1 else 0))
              (ParseInt e 8) (ParseInt f 8) 0 0 T.loc) := by
  have hloc : ∀ (t : Time) (k : Int), (t.AddDate k).loc = t.loc := fun _ _ => rfl
  simp only [next_maintenance_window, index, deref, List.get?, bind, Except.bind, pure,
    Except.pure, Time.Location, Time.AddDate_civil, hloc]
  split_ifs <;> simp only [Time.AddDate_civil, add_zero]

/-! ## Splitting window strings -/

/-- Splitting a piece that holds no separator. -/
theorem splitAux_not_mem (sep : Char) (a cur : List Char) (h : sep ∉ a) :
    splitAux sep a cur = [cur.reverse ++ a] := by
  induction a generalizing cur with
  | nil => simp [splitAux]
  | cons c cs ih =>
    have hc : c ≠ sep := fun e => h (by simp [e])
    have hcs : sep ∉ cs := fun e => h (by simp [e])
    simp [splitAux, hc, ih _ hcs]

/-- Splitting at the first separator. -/
theorem splitAux_append (sep : Char) (a b cur : List Char) (h : sep ∉ a) :
    splitAux sep (a ++ sep :: b) cur = (cur.reverse ++ a) :: splitAux sep b [] := by
  induction a generalizing cur with
  | nil => simp [splitAux]
  | cons c cs ih =>
    have hc : c ≠ sep := fun e => h (by simp [e])
    have hcs : sep ∉ cs := fun e => h (by simp [e])
    simp [splitAux, hc, ih _ hcs]

/-- A split has at least one piece. -/
theorem splitAux_length_pos (sep : Char) (s cur : List Char) :
    0 < (splitAux sep s cur).length := by
  induction s generalizing cur with
  | nil => simp [splitAux]
  | cons c cs ih =>
    simp only [splitAux]
    split_ifs
    · simp
    · exact ih _

/-- The slice returned by `Split` is never empty. -/
theorem Split_length_pos (s : String) (sep : Char) : 0 < (Split s sep).length := by
  simp only [Split, List.length_map]
  exact splitAux_length_pos sep _ _

/-- Two separator-free strings joined by the separator split into the two. -/
theorem Split_two (x y : String) (sep : Char) (hx : sep ∉ x.data) (hy : sep ∉ y.data) :
    Split (x ++ String.mk [sep] ++ y) sep = [x, y] := by
  simp [Split, String.data_append, splitAux_append sep _ _ _ hx, splitAux_not_mem sep _ _ hy]

/-- Three separator-free strings joined by the separator split into the three. -/
theorem Split_three (x y z : String) (sep : Char) (hx : sep ∉ x.data) (hy : sep ∉ y.data)
    (hz : sep ∉ z.data) :
    Split (x ++ String.mk [sep] ++ y ++ String.mk [sep] ++ z) sep = [x, y, z] := by
  simp [Split, String.data_append, splitAux_append sep _ _ _ hx, splitAux_append sep _ _ _ hy,
    splitAux_not_mem sep _ _ hz]

/-- A weekday abbreviation holds no separator and parses back to its number. -/
theorem shortname_clean (w : Nat) (hw : w < 7) :
    ':' ∉ (shortname w).data ∧ '-' ∉ (shortname w).data ∧ shortname w ∈ shortnames ∧
      weekday_from_shortname (shortname w) = w := by
  interval_cases w <;> decide

/-- A two-digit field holds no separator and parses back to its number. -/
theorem twoDigits_clean (n : Nat) (hn : n < 60) :
    ':' ∉ (twoDigits n).data ∧ '-' ∉ (twoDigits n).data ∧ ParseInt (twoDigits n) 8 = n := by
  interval_cases n <;> decide

/-- The three fields of one half of a window string. -/
theorem Split_halfString (w h m : Nat) (hw : w < 7) (hh : h < 60) (hm : m < 60) :
    Split (halfString w h m) ':' = [shortname w, twoDigits h, twoDigits m] :=
  Split_three _ _ _ ':' (shortname_clean w hw).1 (twoDigits_clean h hh).1 (twoDigits_clean m hm).1

/-- The two halves of a window string. -/
theorem Split_windowString (sw sh sm ew eh em : Nat) (hsw : sw < 7) (hsh : sh < 60)
    (hsm : sm < 60) (hew : ew < 7) (heh : eh < 60) (hem : em < 60) :
    Split (windowString sw sh sm ew eh em) '-' = [halfString sw sh sm, halfString ew eh em] := by
  have key : ∀ w h m, w < 7 → h < 60 → m < 60 → '-' ∉ (halfString w h m).data := by
    intro w h m hw hh hm
    simp only [halfString, String.data_append, List.mem_append, not_or]
    exact ⟨⟨⟨⟨(shortname_clean w hw).2.1, by decide⟩, (twoDigits_clean h hh).2.1⟩, by decide⟩,
      (twoDigits_clean m hm).2.1⟩
  exact Split_two _ _ '-' (key _ _ _ hsw hsh hsm) (key _ _ _ hew heh hem)

/-- On a window string, `maintenance_time` calls the resolver with the six fields. -/
theorem maintenance_time_windowString (T : Option Time) (sw sh sm ew eh em : Nat) (hsw : sw < 7)
    (hsh : sh < 60) (hsm : sm < 60) (hew : ew < 7) (heh : eh < 60) (hem : em < 60) :
    maintenance_time T (windowString sw sh sm ew eh em) =
      next_maintenance_window T [shortname sw, twoDigits sh, twoDigits sm]
        [shortname ew, twoDigits eh, twoDigits em] := by
  simp only [maintenance_time, Split_windowString sw sh sm ew eh em hsw hsh hsm hew heh hem,
    index, List.get?, bind, Except.bind, Split_halfString _ _ _ hsw hsh hsm,
    Split_halfString _ _ _ hew heh hem]

/-! ## The calendar builder -/

/-- A sequenced step succeeds exactly when both parts do. -/
theorem bind_ok_iff {α β : Type} (x : Except Abort α) (f : α → Except Abort β) (b : β) :
    (x >>= f) = .ok b ↔ ∃ a, x = .ok a ∧ f a = .ok b := by
  cases x with
  | error e => simp [bind, Except.bind]
  | ok a => simp [bind, Except.bind]

/-- Indexing within the length succeeds. -/
theorem index_ok {α : Type} (xs : List α) (i : Nat) (h : i < xs.length) :
    ∃ v, index xs i = .ok v := by
  simp only [index, List.get?_eq_getElem?, List.getElem?_eq_getElem h]
  exact ⟨_, rfl⟩

/-- The identifiers appended by the resource loop, in order. -/
theorem resource_loop_ids (env : Env) (id desc loc ty svc : String) (rs : List String) :
    ∀ (st en : Option Time) (entries : List CalendarEvent),
      resource_loop env id desc loc ty svc rs st en = .ok entries →
      entries.map (fun c => c.Id) = rs.map (fun r => id ++ "_" ++ r) := by
  induction rs with
  | nil =>
    intro st en entries h
    simp only [resource_loop, Except.ok.injEq] at h
    subst h; rfl
  | cons r rs ih =>
    intro st en entries h
    simp only [resource_loop] at h
    obtain ⟨⟨summary, st1, en1⟩, -, h2⟩ := (bind_ok_iff _ _ _).1 h
    obtain ⟨rest, h3, h4⟩ := (bind_ok_iff _ _ _).1 h2
    simp only [pure, Except.pure, Except.ok.injEq] at h4
    subst h4
    simp [ih _ _ _ h3, calendar_event]

/-- Appending to a fixed string is injective. -/
theorem append_left_injective (a : String) : Function.Injective (fun r : String => a ++ r) := by
  intro x y h
  have h2 := congrArg String.data h
  simp only [String.data_append, List.append_cancel_left_eq] at h2
  exact String.ext h2

/-- On a window string and a non-nil reference time `maintenance_time` returns. -/
theorem maintenance_time_isWindow (T : Time) (w : String) (hw : isWindow w) :
    ∃ s e, maintenance_time (some T) w = .ok (s, e) := by
  obtain ⟨sw, sh, sm, ew, eh, em, h1, h2, h3, h4, h5, h6, rfl⟩ := hw
  exact ⟨_, _, (maintenance_time_windowString (some T) sw sh sm ew eh em h1 (by omega) h3 h4
    (by omega) h6).trans (next_maintenance_window_ok T _ _ _ _ _ _)⟩

/-- One pass of the resource loop returns when the resource's enrichment lookup
succeeds and, for a database or cache event, the time variable holds a time; it then
still holds one. -/
theorem resource_step_ok (env : Env) (region ty svc r : String) (st en : Option Time)
    (h : enriched env region svc r)
    (hst : svc = "RDS" ∨ svc = "ELASTICACHE" → ∃ T, st = some T) :
    ∃ summary st1 en1, resource_step env region ty svc r st en = .ok (summary, st1, en1) ∧
      (svc = "RDS" ∨ svc = "ELASTICACHE" → ∃ T, st1 = some T) := by
  obtain ⟨hec2, hrds, hcache⟩ := h
  by_cases c1 : svc = "EC2"
  · obtain ⟨name, hn⟩ := hec2 c1
    have hstep : resource_step env region ty svc r st en =
        .ok (ty ++ " " ++ name ++ " " ++ r, st, en) := by
      simp [resource_step, c1, hn, bind, Except.bind, pure, Except.pure]
    exact ⟨_, _, _, hstep, hst⟩
  · by_cases c2 : svc = "RDS"
    · obtain ⟨w, hw, hwin⟩ := hrds c2
      obtain ⟨T, rfl⟩ := hst (Or.inl c2)
      obtain ⟨s, e, hm⟩ := maintenance_time_isWindow T w hwin
      have hstep : resource_step env region ty svc r (some T) en =
          .ok (svc ++ " " ++ r ++ " " ++ ty, some s, some e) := by
        simp [resource_step, c2, hw, hm, bind, Except.bind, pure, Except.pure]
      exact ⟨_, _, _, hstep, fun _ => ⟨s, rfl⟩⟩
    · by_cases c3 : svc = "ELASTICACHE"
      · obtain ⟨w, hw, hwin⟩ := hcache c3
        obtain ⟨T, rfl⟩ := hst (Or.inr c3)
        obtain ⟨s, e, hm⟩ := maintenance_time_isWindow T w hwin
        have hstep : resource_step env region ty svc r (some T) en =
            .ok (svc ++ " " ++ r ++ " " ++ ty, some s, some e) := by
          simp [resource_step, c3, hw, hm, bind, Except.bind, pure, Except.pure]
        exact ⟨_, _, _, hstep, fun _ => ⟨s, rfl⟩⟩
      · have hstep : resource_step env region ty svc r st en =
            .ok (svc ++ " " ++ r ++ " " ++ ty, st, en) := by
          simp [resource_step, c1, c2, c3, pure, Except.pure]
        exact ⟨_, _, _, hstep, hst⟩

/-- The resource loop returns when every resource's enrichment lookup succeeds and,
for a database or cache event, the time variable holds a time on entry. -/
theorem resource_loop_ok (env : Env) (id desc loc ty svc : String) (rs : List String) :
    ∀ (st en : Option Time), (∀ r ∈ rs, enriched env loc svc r) →
      (svc = "RDS" ∨ svc = "ELASTICACHE" → ∃ T, st = some T) →
      ∃ entries, resource_loop env id desc loc ty svc rs st en = .ok entries := by
  induction rs with
  | nil => intro st en _ _; exact ⟨[], rfl⟩
  | cons r rs ih =>
    intro st en henr hst
    obtain ⟨summary, st1, en1, hstep, hst1⟩ :=
      resource_step_ok env loc ty svc r st en (henr r (by simp)) hst
    obtain ⟨rest, hrest⟩ := ih st1 en1 (fun x hx => henr x (by simp [hx])) hst1
    have hloop : resource_loop env id desc loc ty svc (r :: rs) st en =
        .ok (calendar_event (id ++ "_" ++ r) summary desc loc st1 en1 :: rest) := by
      simp [resource_loop, hstep, hrest, bind, Except.bind, pure, Except.pure]
    exact ⟨_, hloop⟩

/-! ## The resolver: claims C1 to C6 -/

/-- C1 (defect in the code): for the reference time Monday 10:30 and the well-formed window
`mon:02:45-mon:04:00`, `next_maintenance_window` returns the same Monday at 02:45, a start
that is earlier than the reference time: the roll-forward test asks for the hour and the
minute to be both smaller, and 45 is not below 30. -/
theorem C1_start_before_reference :
    wellFormed "mon" "02" "45" ∧ wellFormed "mon" "04" "00" ∧
    next_maintenance_window (some monday1030) ["mon", "02", "45"] ["mon", "04", "00"] =
      .ok (Time.Date 19730 2 45 0 0 utc, Time.Date 19730 4 0 0 0 utc) ∧
    (Time.Date 19730 2 45 0 0 utc).unixNano < monday1030.unixNano := by
  decide

/-- C2 as stated fails: for the well-formed window `mon:04:00-mon:02:00`, with both weekdays
equal and the end time-of-day before the start time-of-day, the resolver returns an end
(Monday 02:00) that is before the start (Monday 04:00 of the same day). -/
theorem C2_end_before_start :
    wellFormed "mon" "04" "00" ∧ wellFormed "mon" "02" "00" ∧
    next_maintenance_window (some wednesday1000) ["mon", "04", "00"] ["mon", "02", "00"] =
      .ok (Time.Date 19730 4 0 0 0 utc, Time.Date 19730 2 0 0 0 utc) ∧
    ¬ (Time.Date 19730 4 0 0 0 utc).unixNano ≤ (Time.Date 19730 2 0 0 0 utc).unixNano := by
  decide

/-- C2, amended: for every reference time and every well-formed window whose weekdays
differ, or whose end time-of-day is not earlier than its start time-of-day,
`next_maintenance_window` returns a pair with start at or before end. -/
theorem C2_start_le_end (T : Time) (sname shour sminute ename ehour eminute : String)
    (hs : wellFormed sname shour sminute) (he : wellFormed ename ehour eminute)
    (hord : weekday_from_shortname ename ≠ weekday_from_shortname sname ∨
      ParseInt shour 8 < ParseInt ehour 8 ∨
      (ParseInt shour 8 = ParseInt ehour 8 ∧ ParseInt sminute 8 ≤ ParseInt eminute 8)) :
    ∃ s e, next_maintenance_window (some T) [sname, shour, sminute] [ename, ehour, eminute]
        = .ok (s, e) ∧ s.unixNano ≤ e.unixNano := by
  refine ⟨_, _, next_maintenance_window_ok T _ _ _ _ _ _, ?_⟩
  obtain ⟨-, a1, a2, a3, a4⟩ := hs
  obtain ⟨-, b1, b2, b3, b4⟩ := he
  have hc := (Time.Date_fields (T.civil + days_ahead (weekday_from_shortname sname)
    (ParseInt shour 8) (ParseInt sminute 8) T) _ _ T.loc a1 a2 a3 a4).1
  rw [hc]
  simp only [Time.unixNano, Time.Date]
  split_ifs with hw
  · omega
  · have hw2 : weekday_from_shortname ename = weekday_from_shortname sname := by
      by_contra hne; exact hw hne
    omega

/-- C2, amended, at Wednesday 10:00 and the window `sat:23:30-sun:01:00`. -/
theorem C2_start_le_end_witness :
    ∃ s e, next_maintenance_window (some wednesday1000) ["sat", "23", "30"] ["sun", "01", "00"]
        = .ok (s, e) ∧ s.unixNano ≤ e.unixNano :=
  C2_start_le_end wednesday1000 "sat" "23" "30" "sun" "01" "00" (by decide) (by decide)
    (by decide)

/-- C3: for every reference time `T` and every window string `wkd:HH:MM-wkd:HH:MM` (weekday
numbers below 7, hours below 24, minutes below 60) such that the weekday of `T` differs from
the start weekday, or equals it while the window start is not earlier than the (hour, minute)
of `T` in lexicographic order, `maintenance_time` returns a start whose calendar date is the
date of `T` plus `(sw - weekday(T)) mod 7` days, whose time of day is `sh:sm:00` and whose
location is that of `T`. -/
theorem C3_start_date (T : Time) (sw sh sm ew eh em : Nat) (hsw : sw < 7) (hsh : sh < 24)
    (hsm : sm < 60) (hew : ew < 7) (heh : eh < 24) (hem : em < 60)
    (hnot : T.Weekday ≠ sw ∨
      (T.Weekday = sw ∧ ¬ ((sh : Int) < T.Hour ∨ ((sh : Int) = T.Hour ∧ (sm : Int) < T.Minute)))) :
    ∃ s e, maintenance_time (some T) (windowString sw sh sm ew eh em) = .ok (s, e) ∧
      s.civil = T.civil + ((sw : Int) - T.Weekday) % 7 ∧
      s.Hour = sh ∧ s.Minute = sm ∧ s.Second = 0 ∧ s.Nanosecond = 0 ∧
      s.Location = T.Location := by
  have e1 := (shortname_clean sw hsw).2.2.2
  have e2 := (twoDigits_clean sh (by omega)).2.2
  have e3 := (twoDigits_clean sm hsm).2.2
  refine ⟨_, _, (maintenance_time_windowString (some T) sw sh sm ew eh em hsw (by omega) hsm hew
    (by omega) hem).trans (next_maintenance_window_ok T _ _ _ _ _ _), ?_⟩
  rw [e1, e2, e3]
  obtain ⟨f1, f2, f3, f4, f5⟩ := Time.Date_fields (T.civil + days_ahead sw sh sm T) sh sm T.loc
    (by omega) (by omega) (by omega) (by omega)
  refine ⟨?_, f2, f3, f4, f5, rfl⟩
  rw [f1]
  rcases days_ahead_cases sw sh sm T (by omega) (by omega) with ⟨h, -⟩ | ⟨-, h1, h2, h3⟩
  · rw [h]
  · exfalso
    rcases hnot with h | ⟨-, h⟩
    · exact h h1.symm
    · exact h (Or.inl h2)

/-- C3 at its two scenarios: Wednesday 10:00 with `mon:02:00-mon:04:00` gives the Monday 5 days
later, 02:00 to 04:00; Monday 01:00 with the same window gives that same Monday, 02:00 to
04:00. -/
theorem C3_start_date_witness :
    windowString 1 2 0 1 4 0 = "mon:02:00-mon:04:00" ∧
    wednesday1000.Weekday = 3 ∧ monday0100.Weekday = 1 ∧
    maintenance_time (some wednesday1000) "mon:02:00-mon:04:00" =
      .ok (Time.Date (wednesday1000.civil + 5) 2 0 0 0 utc,
        Time.Date (wednesday1000.civil + 5) 4 0 0 0 utc) ∧
    maintenance_time (some monday0100) "mon:02:00-mon:04:00" =
      .ok (Time.Date monday0100.civil 2 0 0 0 utc, Time.Date monday0100.civil 4 0 0 0 utc) ∧
    (∃ s e, maintenance_time (some wednesday1000) (windowString 1 2 0 1 4 0) = .ok (s, e) ∧
      s.civil = wednesday1000.civil + (((1 : Nat) : Int) - wednesday1000.Weekday) % 7 ∧
      s.Hour = (2 : Nat) ∧ s.Minute = (0 : Nat) ∧ s.Second = 0 ∧ s.Nanosecond = 0 ∧
      s.Location = wednesday1000.Location) ∧
    (∃ s e, maintenance_time (some monday0100) (windowString 1 2 0 1 4 0) = .ok (s, e) ∧
      s.civil = monday0100.civil + (((1 : Nat) : Int) - monday0100.Weekday) % 7 ∧
      s.Hour = (2 : Nat) ∧ s.Minute = (0 : Nat) ∧ s.Second = 0 ∧ s.Nanosecond = 0 ∧
      s.Location = monday0100.Location) :=
  ⟨by decide, by decide, by decide, by decide, by decide,
   C3_start_date wednesday1000 1 2 0 1 4 0 (by decide) (by decide) (by decide) (by decide)
     (by decide) (by decide) (Or.inl (by decide)),
   C3_start_date monday0100 1 2 0 1 4 0 (by decide) (by decide) (by decide) (by decide)
     (by decide) (by decide) (Or.inr (by decide))⟩

/-- C4 (defect in the code): at the reference time Monday 10:30 the well-formed windows
starting `mon:02:45` (hour smaller, minute larger) and `mon:10:15` (hour equal, minute smaller)
both start strictly earlier than the reference in lexicographic (hour, minute) order, yet
`next_maintenance_window` returns a start on the reference date itself, not 7 days later. -/
theorem C4_no_roll_forward :
    wellFormed "mon" "02" "45" ∧ wellFormed "mon" "10" "15" ∧ wellFormed "mon" "11" "00" ∧
    monday1030.Weekday = weekday_from_shortname "mon" ∧
    monday1030.Hour = 10 ∧ monday1030.Minute = 30 ∧
    ParseInt "02" 8 < monday1030.Hour ∧
    next_maintenance_window (some monday1030) ["mon", "02", "45"] ["mon", "11", "00"] =
      .ok (Time.Date monday1030.civil 2 45 0 0 utc, Time.Date monday1030.civil 11 0 0 0 utc) ∧
    ParseInt "10" 8 = monday1030.Hour ∧ ParseInt "15" 8 < monday1030.Minute ∧
    next_maintenance_window (some monday1030) ["mon", "10", "15"] ["mon", "11", "00"] =
      .ok (Time.Date monday1030.civil 10 15 0 0 utc, Time.Date monday1030.civil 11 0 0 0 utc) ∧
    (Time.Date monday1030.civil 2 45 0 0 utc).civil ≠ monday1030.civil + 7 ∧
    (Time.Date monday1030.civil 10 15 0 0 utc).civil ≠ monday1030.civil + 7 := by
  decide

/-- C5: for every reference time `T` and every window with a well-formed start, the
resolver returns an occurrence `(s, e)`, and resolving again from `s` returns `(s, e)`. -/
theorem C5_idempotent (T : Time) (sname shour sminute ename ehour eminute : String)
    (hs : wellFormed sname shour sminute) :
    ∃ s e, next_maintenance_window (some T) [sname, shour, sminute] [ename, ehour, eminute]
        = .ok (s, e) ∧
      next_maintenance_window (some s) [sname, shour, sminute] [ename, ehour, eminute]
        = .ok (s, e) := by
  refine ⟨_, _, next_maintenance_window_ok T _ _ _ _ _ _, ?_⟩
  obtain ⟨-, a1, a2, a3, a4⟩ := hs
  have hr := weekday_from_shortname_range sname
  rw [next_maintenance_window_ok]
  obtain ⟨f1, f2, f3, -, -⟩ := Time.Date_fields (T.civil + days_ahead
    (weekday_from_shortname sname) (ParseInt shour 8) (ParseInt sminute 8) T) _ _ T.loc
    a1 a2 a3 a4
  have hd : days_ahead (weekday_from_shortname sname) (ParseInt shour 8) (ParseInt sminute 8)
      (Time.Date (T.civil + days_ahead (weekday_from_shortname sname) (ParseInt shour 8)
        (ParseInt sminute 8) T) (ParseInt shour 8) (ParseInt sminute 8) 0 0 T.loc) = 0 := by
    have hwd : (Time.Date (T.civil + days_ahead (weekday_from_shortname sname) (ParseInt shour 8)
        (ParseInt sminute 8) T) (ParseInt shour 8) (ParseInt sminute 8) 0 0 T.loc).Weekday
        = weekday_from_shortname sname := by
      unfold Time.Weekday
      rw [f1]
      rcases days_ahead_cases (weekday_from_shortname sname) (ParseInt shour 8)
        (ParseInt sminute 8) T hr.1 hr.2 with ⟨h, -⟩ | ⟨h, h', -⟩
      · rw [h]; unfold Time.Weekday; omega
      · rw [h]; rw [h']; unfold Time.Weekday; omega
    exact days_ahead_self _ _ _ _ hwd f2
  simp only [hd, f1, add_zero, Time.Date_loc]

/-- C5 at Wednesday 10:00 and the window `mon:02:00-mon:04:00`. -/
theorem C5_idempotent_witness :
    ∃ s e, next_maintenance_window (some wednesday1000) ["mon", "02", "00"] ["mon", "04", "00"]
        = .ok (s, e) ∧
      next_maintenance_window (some s) ["mon", "02", "00"] ["mon", "04", "00"] = .ok (s, e) :=
  C5_idempotent wednesday1000 "mon" "02" "00" "mon" "04" "00" (by decide)

/-- C6: for every reference time and every window with a well-formed end, the end returned by
`next_maintenance_window` is on the calendar date of the start when the two weekdays are equal
and on the next date when they differ, and its time of day is `eh:em:00`. -/
theorem C6_end_date (T : Time) (sname shour sminute ename ehour eminute : String)
    (he : wellFormed ename ehour eminute) :
    ∃ s e, next_maintenance_window (some T) [sname, shour, sminute] [ename, ehour, eminute]
        = .ok (s, e) ∧
      (weekday_from_shortname ename = weekday_from_shortname sname → e.civil = s.civil) ∧
      (weekday_from_shortname ename ≠ weekday_from_shortname sname → e.civil = s.civil + 1) ∧
      e.Hour = ParseInt ehour 8 ∧ e.Minute = ParseInt eminute 8 ∧ e.Second = 0 ∧
      e.Nanosecond = 0 := by
  refine ⟨_, _, next_maintenance_window_ok T _ _ _ _ _ _, ?_⟩
  obtain ⟨-, b1, b2, b3, b4⟩ := he
  obtain ⟨f1, f2, f3, f4, f5⟩ := Time.Date_fields
    ((Time.Date (T.civil + days_ahead (weekday_from_shortname sname) (ParseInt shour 8)
      (ParseInt sminute 8) T) (ParseInt shour 8) (ParseInt sminute 8) 0 0 T.loc).civil +
      (if weekday_from_shortname ename ≠ weekday_from_shortname sname then 1 else 0))
    _ _ T.loc b1 b2 b3 b4
  refine ⟨?_, ?_, f2, f3, f4, f5⟩
  · intro h; rw [f1]; simp [h]
  · intro h; rw [f1]; simp [h]

/-- C6 at the window `sat:23:30-sun:01:00`: the weekdays differ and the end is one day after
the start. -/
theorem C6_end_date_witness :
    ∃ s e, next_maintenance_window (some wednesday1000) ["sat", "23", "30"] ["sun", "01", "00"]
        = .ok (s, e) ∧
      (weekday_from_shortname "sun" = weekday_from_shortname "sat" → e.civil = s.civil) ∧
      (weekday_from_shortname "sun" ≠ weekday_from_shortname "sat" → e.civil = s.civil + 1) ∧
      e.Hour = ParseInt "01" 8 ∧ e.Minute = ParseInt "00" 8 ∧ e.Second = 0 ∧
      e.Nanosecond = 0 :=
  C6_end_date wednesday1000 "sat" "23" "30" "sun" "01" "00" (by decide)

/-! ## The calendar builder: claims C7 to C10 -/

/-- C7 (defect in the code): for a database event reported for Wednesday 10:00 with resources
`db-a` (window `mon:02:00-mon:04:00`) and `db-b` (window `sun:02:00-sun:04:00`), the entry of
`db-b` starts on the Sunday after the Monday computed for `db-a` (day 19736), which is
`maintenance_time` of the start of the entry of `db-a`, and not on the Sunday after the reported
start (day 19729), which is `maintenance_time` of the reported start. -/
theorem C7_reference_is_previous_occurrence :
    (calendar_events databaseEnv [databaseEvent]).map
        (fun es => es.map (fun c => (c.Id, c.StartAt, c.EndAt))) =
      .ok [("e-2_db-a", some (Time.Date 19730 2 0 0 0 utc), some (Time.Date 19730 4 0 0 0 utc)),
           ("e-2_db-b", some (Time.Date 19736 2 0 0 0 utc), some (Time.Date 19736 4 0 0 0 utc))] ∧
    rds_maintenance_window databaseEnv "db-b" "us-east-1" = .ok "sun:02:00-sun:04:00" ∧
    maintenance_time (some wednesday1000) "sun:02:00-sun:04:00" =
      .ok (Time.Date 19729 2 0 0 0 utc, Time.Date 19729 4 0 0 0 utc) ∧
    maintenance_time (some (Time.Date 19730 2 0 0 0 utc)) "sun:02:00-sun:04:00" =
      .ok (Time.Date 19736 2 0 0 0 utc, Time.Date 19736 4 0 0 0 utc) ∧
    Time.Date 19736 2 0 0 0 utc ≠ Time.Date 19729 2 0 0 0 utc := by
  decide

/-- C8 as stated fails, in two ways.  The identifiers of the three entries of event
`e-1` hold an underscore between the event id and the resource id, so they are not the
concatenation of the two.  And for a database event whose detail lookup and window lookup
both succeed, the window lookup finding no window, `calendar_events` returns no entry at
all: the run panics. -/
theorem C8_identifier_has_separator :
    (calendar_events computeEnv [computeEvent]).map (fun es => es.map (fun c => c.Id)) =
      .ok ["e-1_i-a", "e-1_i-b", "e-1_i-c"] ∧
    "e-1_i-a" ≠ "e-1" ++ "i-a" ∧
    process_event windowlessDatabaseEnv databaseEvent.Arn =
      .ok (["db-a"], "patching", "AWS_RDS_MAINTENANCE_SCHEDULED", "RDS",
        some wednesday1000, some wednesday1000) ∧
    rds_maintenance_window windowlessDatabaseEnv "db-a" "us-east-1" = .ok "" ∧
    calendar_events windowlessDatabaseEnv [databaseEvent] = .error .panic :=
  ⟨by decide, by decide, rfl, by decide, by decide⟩

/-- C8, amended: for every health event with an id and a region whose detail lookup
succeeds with the affected resources `rs`, and whose enrichment lookup succeeds for every
resource (for a database or cache event: the event has a reported start time and each
window lookup returns a string `wkd:HH:MM-wkd:HH:MM`), `calendar_events` returns, with one
entry per resource in list order, the identifier of each being the event id, an underscore
and the resource id; the number of entries is the number of resources, and the identifiers
are pairwise distinct when the resource ids are. -/
theorem C8_entry_ids (env : Env) (ev : HealthEvent) (arn region : String) (rs : List String)
    (desc code svc : String) (st en : Option Time)
    (harn : ev.Arn = some arn) (hreg : ev.Region = some region)
    (hdet : process_event env ev.Arn = .ok (rs, desc, code, svc, st, en))
    (hst : svc = "RDS" ∨ svc = "ELASTICACHE" → ∃ T, st = some T)
    (henr : ∀ r ∈ rs, enriched env region svc r) :
    ∃ entries, calendar_events env [ev] = .ok entries ∧
      entries.map (fun c => c.Id) = rs.map (fun r => arn ++ "_" ++ r) ∧
      entries.length = rs.length ∧
      (rs.Nodup → (entries.map (fun c => c.Id)).Nodup) := by
  obtain ⟨entries, hloop⟩ := resource_loop_ok env arn desc region (event_type_label code) svc
    rs st en henr hst
  have hids := resource_loop_ids env arn desc region _ svc rs st en entries hloop
  rw [harn] at hdet
  refine ⟨entries, ?_, hids, ?_, ?_⟩
  · simp [calendar_events, event_entries, hdet, harn, hreg, deref, hloop, bind, Except.bind,
      pure, Except.pure]
  · have := congrArg List.length hids
    simpa using this
  · intro hnd
    rw [hids]
    exact hnd.map (append_left_injective (arn ++ "_"))

/-- C8, amended, at a compute event with the three resources `i-a`, `i-b`, `i-c` and at a
database event with the two resources `db-a`, `db-b`. -/
theorem C8_entry_ids_witness :
    (∃ entries, calendar_events computeEnv [computeEvent] = .ok entries ∧
      entries.map (fun c => c.Id) = ["i-a", "i-b", "i-c"].map (fun r => "e-1" ++ "_" ++ r) ∧
      entries.length = ["i-a", "i-b", "i-c"].length ∧
      (["i-a", "i-b", "i-c"].Nodup → (entries.map (fun c => c.Id)).Nodup)) ∧
    (∃ entries, calendar_events databaseEnv [databaseEvent] = .ok entries ∧
      entries.map (fun c => c.Id) = ["db-a", "db-b"].map (fun r => "e-2" ++ "_" ++ r) ∧
      entries.length = ["db-a", "db-b"].length ∧
      (["db-a", "db-b"].Nodup → (entries.map (fun c => c.Id)).Nodup)) :=
  ⟨C8_entry_ids computeEnv computeEvent "e-1" "us-east-1" ["i-a", "i-b", "i-c"] "retirement"
      "AWS_EC2_INSTANCE_RETIREMENT_SCHEDULED" "EC2" (some wednesday1000) (some monday0100)
      rfl rfl rfl (fun h => absurd h (by decide))
      (fun r _ => ⟨fun _ => ⟨_, rfl⟩, fun h => absurd h (by decide),
        fun h => absurd h (by decide)⟩),
   C8_entry_ids databaseEnv databaseEvent "e-2" "us-east-1" ["db-a", "db-b"] "patching"
      "AWS_RDS_MAINTENANCE_SCHEDULED" "RDS" (some wednesday1000) (some wednesday1000)
      rfl rfl rfl (fun _ => ⟨_, rfl⟩)
      (fun r hr => ⟨fun h => absurd h (by decide),
        fun _ => by
          rcases List.mem_cons.1 hr with h | h
          · subst h
            exact ⟨_, rfl, 1, 2, 0, 1, 4, 0, by decide, by decide, by decide, by decide,
              by decide, by decide, by decide⟩
          · rcases List.mem_cons.1 h with h | h
            · subst h
              exact ⟨_, rfl, 0, 2, 0, 0, 4, 0, by decide, by decide, by decide, by decide,
                by decide, by decide, by decide⟩
            · exact absurd h (List.not_mem_nil _),
        fun h => absurd h (by decide)⟩)⟩

/-- C9 as stated fails: a failed database cluster lookup ends the run in `log.Fatal`, a failed
compute-instance lookup ends it in a panic, `maintenance_time` on the empty window string
panics on its second index, and a cache event whose lookups fail therefore ends in a panic. -/
theorem C9_enrichment_failure_aborts :
    failingDatabaseEnv.DescribeDBClusters "us-east-1" "db-a" = .error "DBClusterNotFoundFault" ∧
    calendar_events failingDatabaseEnv [databaseEvent] = .error .fatal ∧
    failingComputeEnv.DescribeInstances "us-east-1" "i-a" = .error "RequestLimitExceeded" ∧
    calendar_events failingComputeEnv [computeEvent] = .error .panic ∧
    maintenance_time (some wednesday1000) "" = .error .panic ∧
    elasticache_maintenance_window failingCacheEnv "grp/node_a-001" "us-east-1" = .ok "" ∧
    calendar_events failingCacheEnv [databaseEvent] = .error .panic := by
  decide

/-- C9, amended: for an event with one affected resource, an empty compute-instance lookup does
not stop the run, `calendar_events` returning the entry with the empty instance name; a failed
compute-instance lookup stops it with a panic and a failed database lookup with `log.Fatal`;
failed cache lookups are discarded by `elasticache_maintenance_window`, which returns the empty
window string for a resource id with at least two `_`-separated segments after `/` is replaced. -/
theorem C9_enrichment (env : Env) (arn region r desc code svc : String) (st en : Option Time)
    (hres : env.DescribeAffectedEntities (some arn) = .ok [some r])
    (hdet : env.DescribeEventDetails (some arn) = .ok [⟨some desc, some code, some svc, st, en⟩]) :
    (svc = "EC2" → env.DescribeInstances region r = .ok [] →
      calendar_events env [⟨some arn, some region⟩] =
        .ok [calendar_event (arn ++ "_" ++ r) (event_type_label code ++ " " ++ "" ++ " " ++ r)
          desc region st en]) ∧
    (svc = "EC2" → (∃ err, env.DescribeInstances region r = .error err) →
      calendar_events env [⟨some arn, some region⟩] = .error .panic) ∧
    (svc = "RDS" → (∃ err, env.DescribeDBClusters region r = .error err) →
      calendar_events env [⟨some arn, some region⟩] = .error .fatal) ∧
    (svc = "RDS" → env.DescribeDBClusters region r = .ok [] →
      (∃ err, env.DescribeDBInstances region r = .error err) →
      calendar_events env [⟨some arn, some region⟩] = .error .fatal) ∧
    (2 ≤ (Split (Replace r '/' '_') '_').length →
      (∀ name, ∃ err, env.DescribeReplicationGroups region name = .error err) →
      (∀ name, ∃ err, env.DescribeCacheClusters region name = .error err) →
      elasticache_maintenance_window env r region = .ok "") := by
  have hp : process_event env (some arn) = .ok ([r], desc, code, svc, st, en) := by
    simp [process_event, resource_ids, hres, hdet, ignoreErr, entityLoop, deref, orFatal,
      detailLoop, bind, Except.bind, pure, Except.pure]
  refine ⟨?_, ?_, ?_, ?_, ?_⟩
  · intro hs hi
    subst hs
    simp [calendar_events, event_entries, hp, deref, resource_loop, resource_step,
      ec2InstanceName, hi, errorCheck, reservationLoop, bind, Except.bind, pure, Except.pure]
  · rintro hs ⟨err, hi⟩
    subst hs
    simp [calendar_events, event_entries, hp, deref, resource_loop, resource_step,
      ec2InstanceName, hi, errorCheck, bind, Except.bind]
  · rintro hs ⟨err, hi⟩
    subst hs
    simp [calendar_events, event_entries, hp, deref, resource_loop, resource_step,
      rds_maintenance_window, hi, orFatal, bind, Except.bind]
  · rintro hs hc ⟨err, hi⟩
    subst hs
    simp [calendar_events, event_entries, hp, deref, resource_loop, resource_step,
      rds_maintenance_window, hc, hi, orFatal, lastDeref, bind, Except.bind, pure, Except.pure]
  · intro hl hg hc
    obtain ⟨e1, h1⟩ := hg (Join ((Split (Replace r '/' '_') '_').take
      ((Split (Replace r '/' '_') '_').length - 2)) '_')
    obtain ⟨e2, h2⟩ := hc ""
    obtain ⟨v, hv⟩ := index_ok (Split r '-') ((Split r '-').length - 1)
      (by have := Split_length_pos r '-'; omega)
    have hl2 : ¬ (Split (Replace r '/' '_') '_').length < 2 := by omega
    simp [elasticache_maintenance_window, hl2, hv, h1, h2, ignoreErr, memberLoop, lastDeref,
      bind, Except.bind, pure, Except.pure]

/-- C9, amended, at four environments: an instance that is not found, a failing instance
lookup, a failing database lookup and failing cache lookups. -/
theorem C9_enrichment_witness :
    calendar_events unnamedComputeEnv [⟨some "e-1", some "us-east-1"⟩] =
      .ok [calendar_event ("e-1" ++ "_" ++ "i-a")
        (event_type_label "AWS_EC2_INSTANCE_RETIREMENT_SCHEDULED" ++ " " ++ "" ++ " " ++ "i-a")
        "retirement" "us-east-1" (some wednesday1000) (some monday0100)] ∧
    calendar_events failingComputeEnv [⟨some "e-1", some "us-east-1"⟩] = .error .panic ∧
    calendar_events failingDatabaseEnv [⟨some "e-2", some "us-east-1"⟩] = .error .fatal ∧
    elasticache_maintenance_window failingCacheEnv "grp/node_a-001" "us-east-1" = .ok "" :=
  ⟨(C9_enrichment unnamedComputeEnv "e-1" "us-east-1" "i-a" "retirement"
      "AWS_EC2_INSTANCE_RETIREMENT_SCHEDULED" "EC2" (some wednesday1000) (some monday0100)
      rfl rfl).1 rfl rfl,
   (C9_enrichment failingComputeEnv "e-1" "us-east-1" "i-a" "retirement"
      "AWS_EC2_INSTANCE_RETIREMENT_SCHEDULED" "EC2" (some wednesday1000) (some monday0100)
      rfl rfl).2.1 rfl ⟨_, rfl⟩,
   (C9_enrichment failingDatabaseEnv "e-2" "us-east-1" "db-a" "patching"
      "AWS_RDS_MAINTENANCE_SCHEDULED" "RDS" (some wednesday1000) (some wednesday1000)
      rfl rfl).2.2.1 rfl ⟨_, rfl⟩,
   (C9_enrichment failingCacheEnv "e-3" "us-east-1" "grp/node_a-001" "patching"
      "AWS_ELASTICACHE_UPDATE" "ELASTICACHE" (some wednesday1000) (some wednesday1000)
      rfl rfl).2.2.2.2 (by decide) (fun _ => ⟨_, rfl⟩) (fun _ => ⟨_, rfl⟩)⟩

/-- C10: the event-type mapping of `calendar_events` sends the six table codes to their
labels, `AWS_EC2_INSTANCE_RETIREMENT_SCHEDULED` to `RETIREMENT` among them, and every code
outside the table to itself. -/
theorem C10_event_type_label (code : String)
    (h : code ∉ ["AWS_EC2_INSTANCE_REBOOT_MAINTENANCE_SCHEDULED",
      "AWS_EC2_INSTANCE_POWER_MAINTENANCE_SCHEDULED",
      "AWS_EC2_SYSTEM_REBOOT_MAINTENANCE_SCHEDULED",
      "AWS_EC2_INSTANCE_RETIREMENT_SCHEDULED",
      "AWS_EC2_INSTANCE_NETWORK_MAINTENANCE_SCHEDULED",
      "AWS_RDS_MAINTENANCE_SCHEDULED"]) :
    event_type_label "AWS_EC2_INSTANCE_RETIREMENT_SCHEDULED" = "RETIREMENT" ∧
    event_type_label "AWS_EC2_INSTANCE_REBOOT_MAINTENANCE_SCHEDULED" = "REBOOT" ∧
    event_type_label "AWS_EC2_INSTANCE_POWER_MAINTENANCE_SCHEDULED" = "REBOOT" ∧
    event_type_label "AWS_EC2_SYSTEM_REBOOT_MAINTENANCE_SCHEDULED" = "REBOOT" ∧
    event_type_label "AWS_EC2_INSTANCE_NETWORK_MAINTENANCE_SCHEDULED" = "NET MAINT" ∧
    event_type_label "AWS_RDS_MAINTENANCE_SCHEDULED" = "MAINT SCHEDULED" ∧
    event_type_label code = code := by
  refine ⟨by decide, by decide, by decide, by decide, by decide, by decide, ?_⟩
  simp only [List.mem_cons, List.mem_singleton, not_or, List.not_mem_nil, or_false] at h
  obtain ⟨h1, h2, h3, h4, h5, h6⟩ := h
  simp [event_type_label, h1, h2, h3, h4, h5, h6]

/-- C10 at the code `AWS_HEALTH_OTHER`, which is outside the table. -/
theorem C10_event_type_label_witness :
    event_type_label "AWS_EC2_INSTANCE_RETIREMENT_SCHEDULED" = "RETIREMENT" ∧
    event_type_label "AWS_EC2_INSTANCE_REBOOT_MAINTENANCE_SCHEDULED" = "REBOOT" ∧
    event_type_label "AWS_EC2_INSTANCE_POWER_MAINTENANCE_SCHEDULED" = "REBOOT" ∧
    event_type_label "AWS_EC2_SYSTEM_REBOOT_MAINTENANCE_SCHEDULED" = "REBOOT" ∧
    event_type_label "AWS_EC2_INSTANCE_NETWORK_MAINTENANCE_SCHEDULED" = "NET MAINT" ∧
    event_type_label "AWS_RDS_MAINTENANCE_SCHEDULED" = "MAINT SCHEDULED" ∧
    event_type_label "AWS_HEALTH_OTHER" = "AWS_HEALTH_OTHER" :=
  C10_event_type_label "AWS_HEALTH_OTHER" (by decide)

end MaintenanceCalendar
